import Mathlib

/-
  Verification of the ProteinDock docking-job pipeline.

  Shallow embedding of the backend core:
    - backend/utils/vinaDocking.js   (Process Runner: runDocking, clusterPoses,
                                      analyzeInteractions)
    - backend/routes/auth.js         (Orchestrator: the docking submit route and
                                      processDockingJob)
    - backend/server.js              (Viewer Lifecycle Manager: setupViewerCleanup)
    - backend/models/DockingJob.js   (Job document shape)

  Conventions of the embedding:
    - JavaScript numbers are modelled as ℚ (scores, RMSD values, distances) or
      Int (progress percentages, exit codes, timestamps as epoch milliseconds).
    - Math.random() is modelled by an explicit stream `rand : ℕ → ℚ`; the index
      mapping of draws to call sites is fixed but arbitrary, since no verified
      property depends on the drawn values.
    - Absent JavaScript object fields are modelled with Option; the JS idiom
      `x || d` on numbers and strings is modelled by a function that maps the
      falsy values (absent, 0, empty string) to the default.
    - The Mongo document store is modelled as explicit record state; an atomic
      partial update of one field is a functional record update of that field.
-/

namespace ProteinDock

/-! ## Data model (backend/models/DockingJob.js) -/

/-- Job lifecycle states, from the `status` enum of the DockingJob schema. -/
inductive JobStatus
  | pending
  | running
  | completed
  | failed
deriving DecidableEq

/-- A 3-component vector, used for the grid center and grid size. -/
structure GridVec where
  x : ℚ
  y : ℚ
  z : ℚ
deriving DecidableEq

/-- Docking parameters persisted on a job (the `parameters` sub-document). -/
structure DockingParams where
  gridCenter : GridVec
  gridSize : GridVec
  method : String
  exhaustivity : ℚ
  numPoses : ℕ
deriving DecidableEq

/-- A hydrogen-bond entry of an interaction annotation. -/
structure HBond where
  residue : String
  atom : String
  distance : ℚ
deriving DecidableEq

/-- A hydrophobic, pi-stacking or ionic contact entry. -/
structure Contact where
  residue : String
  distance : ℚ
deriving DecidableEq

/-- Interaction annotation attached to a pose or to the whole result. -/
structure Interactions where
  hBonds : List HBond
  hydrophobic : List Contact
  piStacking : List Contact
  ionic : List Contact
deriving DecidableEq

/-- The empty interaction annotation, the JS default `hBonds: [], ...`. -/
def emptyInteractions : Interactions :=
  { hBonds := [], hydrophobic := [], piStacking := [], ionic := [] }

/-- One persisted pose of a docking result (the `results.poses` entries built
by processDockingJob). -/
structure Pose where
  poseId : ℕ
  clusterId : ℕ
  score : ℚ
  vinaScore : ℚ
  rmsd : ℚ
  pdbFile : Option String
  coordinates : String
  interactions : Interactions
deriving DecidableEq

/-- One persisted cluster summary (the `results.clusters` entries returned by
clusterPoses). -/
structure Cluster where
  clusterId : ℕ
  memberCount : ℕ
  bestScore : ℚ
  representativePose : ℕ
deriving DecidableEq

/-- The best-pose summary stored at `results.bestPose`. -/
structure BestPose where
  poseId : ℕ
  score : ℚ
  bindingAffinity : ℚ
deriving DecidableEq

/-- Grid-detection information forwarded from the engine. -/
structure GridDetection where
  method : String
  confidence : String
deriving DecidableEq

/-- Generated-file references stored at `results.files`. -/
structure FilesDoc where
  complexPdb : String
  bestPosePdb : String
  bestPosePdbqt : String
  allPosesPdbqt : String
deriving DecidableEq

/-- The ephemeral viewer sub-document at `results.viewer`. All fields are
optional, mirroring the Mongo sub-document whose paths may be absent. -/
structure Viewer where
  viewerId : Option String
  htmlPath : Option String
  expiresAt : Option Int
  urlPath : Option String
deriving DecidableEq

/-- The empty viewer object `{}` that the cleanup sweep writes back. -/
def emptyViewer : Viewer :=
  { viewerId := none, htmlPath := none, expiresAt := none, urlPath := none }

/-- The `results` sub-document of a job. Fields that only one of the two
completion paths writes are Options. -/
structure JobResults where
  bindingAffinity : ℚ
  gridDetection : Option GridDetection
  files : Option FilesDoc
  viewer : Option Viewer
  interactions : Option Interactions
  poses : List Pose
  clusters : List Cluster
  bestPose : BestPose
  method : String
deriving DecidableEq

/-- A DockingJob document. -/
structure Job where
  userId : String
  proteinId : String
  ligandId : String
  status : JobStatus
  parameters : DockingParams
  progress : Int
  estimatedTime : Int
  results : Option JobResults
  error : Option String
  createdAt : Int
  completedAt : Option Int
deriving DecidableEq

/-! ## Engine protocol (backend/utils/vinaDocking.js, runDocking) -/

/-- A raw pose record of the engine success payload. `rmsd_lb` is optional:
the Python engine may omit it, and the mapped pose objects that the
Orchestrator later passes back to clusterPoses never carry it. -/
structure RawPose where
  poseId : ℕ
  score : ℚ
  rmsd_lb : Option ℚ
  pdbFile : Option String
  interactions : Option Interactions
deriving DecidableEq

/-- The parsed success payload of the engine (`status: "success"` line). -/
structure EngineSuccess where
  poses : List RawPose
  best_affinity : ℚ
  grid_detection : Option GridDetection
  complex_pdb : Option String
  best_pose_pdb : Option String
  pose_files : Option (List String)
  output_file : Option String
  viewer : Option Viewer
  interactions : Option Interactions
deriving DecidableEq

/-- One complete line of the engine stdout stream, as classified by the
stdout handler of runDocking: a JSON message with a `progress` field, a JSON
message with `status: "success"`, or anything else (non-JSON debug output,
which is logged and ignored). -/
inductive EngineLine
  | progressMsg (progress : Int) (message : String)
  | successMsg (r : EngineSuccess)
  | otherLine (s : String)
deriving DecidableEq

/-- The progress filter of runDocking. `lastProgress` starts at 0; a progress
line is forwarded to the onProgress callback only when its value is strictly
greater than `lastProgress`, which is then advanced. All other lines leave the
filter state unchanged. The returned list is the sequence of values passed to
the callback, each of which the Orchestrator persists with an atomic
findByIdAndUpdate of the `progress` field. -/
def filteredProgress : Int → List EngineLine → List Int
  | _, [] => []
  | lastProgress, EngineLine.progressMsg p _ :: rest =>
    if p > lastProgress then p :: filteredProgress p rest
    else filteredProgress lastProgress rest
  | lastProgress, EngineLine.successMsg _ :: rest => filteredProgress lastProgress rest
  | lastProgress, EngineLine.otherLine _ :: rest => filteredProgress lastProgress rest

/-- The progress values persisted for one run, starting from the initial
filter state `lastProgress = 0` of runDocking. -/
def persistedProgress (lines : List EngineLine) : List Int :=
  filteredProgress 0 lines

/-- All progress values occurring in the stream, before filtering. -/
def progressValues : List EngineLine → List Int
  | [] => []
  | EngineLine.progressMsg p _ :: rest => p :: progressValues rest
  | EngineLine.successMsg _ :: rest => progressValues rest
  | EngineLine.otherLine _ :: rest => progressValues rest

/-- The first success message of the stream, if any: the stdout handler calls
resolve on the first line that parses with `status: "success"`; later resolve
and reject calls on the already-settled promise are no-ops. -/
def firstSuccess : List EngineLine → Option EngineSuccess
  | [] => none
  | EngineLine.successMsg r :: _ => some r
  | EngineLine.progressMsg _ _ :: rest => firstSuccess rest
  | EngineLine.otherLine _ :: rest => firstSuccess rest

/-- How the runDocking promise settles. -/
inductive SettleResult
  | resolved (r : EngineSuccess)
  | rejected (message : String)
  | pending
deriving DecidableEq

/-- The error message of the close handler of runDocking (the template
message without the interpolated code). -/
def vinaExitFailureMessage : String := "Vina docking failed"

/-- Settlement of the runDocking promise given the complete stdout lines and
the exit code. Node delivers all stdout data events before the close event, so
a success line settles the promise first and the later reject of the close
handler is a no-op; only when no success line was seen does the close handler
observe an unsettled promise and reject on a non-zero code. With exit code 0
and no success line, nothing ever settles the promise. -/
def runDockingSettle (lines : List EngineLine) (exitCode : Int) : SettleResult :=
  match firstSuccess lines with
  | some r => SettleResult.resolved r
  | none =>
    if exitCode ≠ 0 then SettleResult.rejected vinaExitFailureMessage
    else SettleResult.pending

/-- A sample parsed engine success payload, used as concrete input. -/
def sampleSuccess : EngineSuccess :=
  { poses := [{ poseId := 1, score := -7, rmsd_lb := some 1, pdbFile := none,
                interactions := none }]
    best_affinity := -7
    grid_detection := none
    complex_pdb := none
    best_pose_pdb := none
    pose_files := none
    output_file := none
    viewer := none
    interactions := none }

/-! ## Pose clustering (backend/utils/vinaDocking.js, clusterPoses)

clusterPoses only reads the fields poseId, score and rmsd_lb of its input
objects, so its input type records exactly those; rmsd_lb is optional because
the mapped pose objects the Orchestrator passes in do not carry that property
(reading it yields undefined, and `rmsd_lb || 0` turns it into 0). -/

/-- The projection of a pose seen by clusterPoses. -/
structure VPose where
  poseId : ℕ
  score : ℚ
  rmsd_lb : Option ℚ
deriving DecidableEq

/-- Pairs each pose with its array index, as forEach does. -/
def enumPosesFrom : ℕ → List VPose → List (ℕ × VPose)
  | _, [] => []
  | n, p :: rest => (n, p) :: enumPosesFrom (n + 1) rest

/-- The inner forEach of clusterPoses: scan the whole pose array; skip poses
already assigned and the representative itself; absorb into the open cluster
every remaining pose whose `rmsd_lb || 0` is within the threshold, marking it
assigned. Returns the absorbed (index, pose) pairs in scan order together with
the updated assigned set. -/
def innerLoop (t : ℚ) (idx : ℕ) :
    List (ℕ × VPose) → Finset ℕ → List (ℕ × VPose) × Finset ℕ
  | [], assigned => ([], assigned)
  | (j, q) :: rest, assigned =>
    if j ∈ assigned ∨ j = idx then innerLoop t idx rest assigned
    else if q.rmsd_lb.getD 0 ≤ t then
      let r := innerLoop t idx rest (insert j assigned)
      ((j, q) :: r.1, r.2)
    else innerLoop t idx rest assigned

/-- The outer forEach of clusterPoses: for each pose not yet assigned, open a
new cluster with it as representative (clusterId = number of clusters so far,
bestScore = its score), run the inner scan over the whole array, record the
member count, and mark the representative assigned. Each produced cluster is
paired with the member indices (representative first) for the membership
theorems; the JS code keeps the same list as `cluster.members` and stores its
length. -/
def outerLoop (t : ℚ) (allPoses : List (ℕ × VPose)) :
    List (ℕ × VPose) → Finset ℕ → ℕ → List (Cluster × List ℕ)
  | [], _, _ => []
  | (idx, pose) :: rest, assigned, nClusters =>
    if idx ∈ assigned then outerLoop t allPoses rest assigned nClusters
    else
      let r := innerLoop t idx allPoses assigned
      let memberIdxs := idx :: r.1.map Prod.fst
      ({ clusterId := nClusters
         memberCount := memberIdxs.length
         bestScore := pose.score
         representativePose := pose.poseId }, memberIdxs)
      :: outerLoop t allPoses rest (insert idx r.2) (nClusters + 1)

/-- clusterPoses together with the member indices of each cluster. -/
def clusterPosesAux (poses : List VPose) (rmsdThreshold : ℚ) :
    List (Cluster × List ℕ) :=
  outerLoop rmsdThreshold (enumPosesFrom 0 poses) (enumPosesFrom 0 poses) ∅ 0

/-- clusterPoses of vinaDocking.js (the returned cluster summaries). -/
def clusterPoses (poses : List VPose) (rmsdThreshold : ℚ) : List Cluster :=
  (clusterPosesAux poses rmsdThreshold).map Prod.fst

/-! ## Orchestrator (backend/routes/auth.js, processDockingJob) -/

/-- The placeholder interaction analysis of vinaDocking.js. The rand stream
models the Math.random() draws of the call site. -/
def analyzeInteractions (rand : ℕ → ℚ) : Interactions :=
  { hBonds := [{ residue := "ASP25", atom := "OD1", distance := 2.8 + rand 0 * 0.5 },
               { residue := "ILE50", atom := "O", distance := 3 + rand 1 * 0.4 }]
    hydrophobic := [{ residue := "VAL32", distance := 3.5 + rand 2 * 0.5 },
                    { residue := "LEU76", distance := 3.8 + rand 3 * 0.6 }]
    piStacking := [{ residue := "PHE43", distance := 3.6 + rand 4 * 0.4 }]
    ionic := [{ residue := "ARG8", distance := 3.2 + rand 5 * 0.5 }] }

/-- The `results.poses.map((pose, idx) => ...)` step of the real completion
path, with the running array index made explicit: clusterId is
Math.floor(idx / 3), rmsd is `pose.rmsd_lb || 0`, pdbFile is
`pose.pdbFile || ''`, and missing interaction data is replaced by the
placeholder analysis. -/
def mapVinaPosesFrom (rand : ℕ → ℚ) : List RawPose → ℕ → List Pose
  | [], _ => []
  | pose :: rest, idx =>
    { poseId := pose.poseId
      clusterId := idx / 3
      score := pose.score
      vinaScore := pose.score
      rmsd := pose.rmsd_lb.getD 0
      pdbFile := some (pose.pdbFile.getD "")
      coordinates := "POSE_" ++ toString pose.poseId
      interactions := pose.interactions.getD (analyzeInteractions rand) }
    :: mapVinaPosesFrom rand rest (idx + 1)

/-- The mapped pose list of the real completion path (indices from 0). -/
def mapVinaPoses (rand : ℕ → ℚ) (rawPoses : List RawPose) : List Pose :=
  mapVinaPosesFrom rand rawPoses 0

/-- The view of a mapped pose that clusterPoses reads. Mapped pose objects
carry no rmsd_lb property, so reading it yields undefined, modelled none. -/
def toVPose (p : Pose) : VPose :=
  { poseId := p.poseId, score := p.score, rmsd_lb := none }

/-- The ordering used by `poses.sort((a, b) => a.score - b.score)`. -/
def scoreLE (a b : Pose) : Prop := a.score ≤ b.score

instance : DecidableRel scoreLE :=
  fun a b => inferInstanceAs (Decidable (a.score ≤ b.score))

instance : IsTotal Pose scoreLE := ⟨fun a b => le_total a.score b.score⟩

instance : IsTrans Pose scoreLE := ⟨fun _ _ _ hab hbc => le_trans hab hbc⟩

/-- The success half of the real-engine completion path of processDockingJob:
map the raw poses, compute the RMSD clusters over the mapped poses (before the
sort), then assemble the results document whose pose list is sorted ascending
by score and whose bestPose is read from index 0 of the sorted list. Reading
index 0 of an empty list throws, which the surrounding catch turns into a
failed job; that branch is the empty-sort case here. -/
def completeRealJob (now : Int) (rand : ℕ → ℚ) (res : EngineSuccess) (job : Job) : Job :=
  let poses := mapVinaPoses rand res.poses
  let clusters := clusterPoses (poses.map toVPose) 2
  let sorted := List.insertionSort scoreLE poses
  match sorted with
  | [] =>
    { job with status := JobStatus.failed,
               error := some "TypeError: cannot read poseId of undefined" }
  | best :: _ =>
    { job with
      status := JobStatus.completed
      progress := 100
      results := some
        { bindingAffinity := res.best_affinity
          gridDetection := res.grid_detection
          files := some
            { complexPdb := res.complex_pdb.getD ""
              bestPosePdb := res.best_pose_pdb.getD ""
              bestPosePdbqt := (res.pose_files.bind List.head?).getD ""
              allPosesPdbqt := res.output_file.getD "" }
          viewer := some (res.viewer.getD emptyViewer)
          interactions := some (res.interactions.getD emptyInteractions)
          poses := sorted
          clusters := clusters
          bestPose := { poseId := best.poseId, score := best.score,
                        bindingAffinity := res.best_affinity }
          method := "vina-real" }
      completedAt := some now }

/-- The per-pose interaction placeholder of the simulation path; k is the
rand-stream offset of the pose. -/
def simInteractions (rand : ℕ → ℚ) (k : ℕ) : Interactions :=
  { hBonds := [{ residue := "ASP25", atom := "OD1", distance := 2.8 + rand (k + 3) * 0.5 },
               { residue := "ILE50", atom := "O", distance := 3 + rand (k + 4) * 0.4 }]
    hydrophobic := [{ residue := "VAL32", distance := 3.5 + rand (k + 5) * 0.5 },
                    { residue := "LEU76", distance := 3.8 + rand (k + 6) * 0.6 }]
    piStacking := [{ residue := "PHE43", distance := 3.6 + rand (k + 7) * 0.4 }]
    ionic := [{ residue := "ARG8", distance := 3.2 + rand (k + 8) * 0.5 }] }

/-- One synthetic pose of the simulation path. poseId is one plus the number
of poses generated so far; each pose consumes a block of the rand stream. -/
def simPose (rand : ℕ → ℚ) (clusterId poseCount : ℕ) (clusterBaseScore : ℚ) : Pose :=
  { poseId := poseCount + 1
    clusterId := clusterId
    score := clusterBaseScore + rand (9 * poseCount) * 0.8
    vinaScore := clusterBaseScore + rand (9 * poseCount + 1) * 0.5
    rmsd := rand (9 * poseCount + 2) * 2.5
    pdbFile := none
    coordinates := "SIMULATED_POSE_" ++ toString (poseCount + 1)
    interactions := simInteractions rand (9 * poseCount) }

/-- The inner pose-generation loop of the simulation path:
`for (i = 0; i < posesInCluster && poses.length < numPoses; i++)`. The fuel is
the remaining iteration budget posesInCluster grants; poseCount is the number
of poses generated so far across all clusters. -/
def simPoseLoop (rand : ℕ → ℚ) (numPoses clusterId : ℕ) (clusterBaseScore : ℚ) :
    ℕ → ℕ → List Pose
  | 0, _ => []
  | fuel + 1, poseCount =>
    if poseCount < numPoses then
      simPose rand clusterId poseCount clusterBaseScore
        :: simPoseLoop rand numPoses clusterId clusterBaseScore fuel (poseCount + 1)
    else []

/-- `Math.ceil(numPoses / 3)`, the per-cluster pose budget of the simulation
path. -/
def posesPerCluster (numPoses : ℕ) : ℕ := (numPoses + 2) / 3

/-- The outer `for (clusterId = 0; clusterId < 3; clusterId++)` loop of the
simulation path, generating poses and pushing one cluster summary per
iteration (memberCount is always the per-cluster budget, as in the source).
The fuel counts the remaining cluster iterations, 3 at the top call. -/
def simClusterLoop (rand : ℕ → ℚ) (numPoses posesInCluster : ℕ) (baseScore : ℚ) :
    ℕ → ℕ → ℕ → List Pose × List Cluster
  | 0, _, _ => ([], [])
  | fuel + 1, clusterId, poseCount =>
    let clusterBaseScore := baseScore + (clusterId : ℚ) * 1.5
    let newPoses := simPoseLoop rand numPoses clusterId clusterBaseScore
      posesInCluster poseCount
    let recRest := simClusterLoop rand numPoses posesInCluster baseScore fuel
      (clusterId + 1) (poseCount + newPoses.length)
    (newPoses ++ recRest.1,
     { clusterId := clusterId
       memberCount := posesInCluster
       bestScore := clusterBaseScore
       representativePose := clusterId * posesInCluster + 1 } :: recRest.2)

/-- The simulation branch of processDockingJob: two progress saves at 50 and
75 (the two fixed delays), synthetic pose and cluster generation, sort by
score, and the terminal update with method "simulated". Returns the final job
and the two intermediate saved snapshots. Reading index 0 of an empty sorted
list throws into the catch, the empty-sort case here. -/
def simulateDocking (now : Int) (rand : ℕ → ℚ) (params : DockingParams) (job : Job) :
    Job × List Job :=
  let j1 := { job with progress := 50 }
  let j2 := { j1 with progress := 75 }
  let baseScore : ℚ := -6.5 - rand 100 * 3
  let gen := simClusterLoop rand params.numPoses (posesPerCluster params.numPoses)
    baseScore 3 0 0
  let sorted := List.insertionSort scoreLE gen.1
  match sorted with
  | [] =>
    ({ j2 with status := JobStatus.failed,
               error := some "TypeError: cannot read score of undefined" }, [j1, j2])
  | best :: _ =>
    ({ j2 with
       status := JobStatus.completed
       progress := 100
       results := some
         { bindingAffinity := best.score
           gridDetection := none
           files := none
           viewer := none
           interactions := none
           poses := sorted
           clusters := gen.2
           bestPose := { poseId := best.poseId, score := best.score,
                         bindingAffinity := best.score }
           method := "simulated" }
       completedAt := some now }, [j1, j2])

/-- How the engine run ends, seen from processDockingJob: the awaited
runDocking promise either resolves with a success payload or rejects with an
error message (non-zero exit without success, or spawn error). -/
inductive EngineOutcome
  | ok (r : EngineSuccess)
  | err (message : String)

/-- processDockingJob: mark the job running with progress 10, then either run
the real engine path (when the startup availability flag is set and the method
is vina) or the simulation path; any rejection is caught and persisted as a
failed job with the error message, leaving the other fields as they were.
Returns the final job state and the list of intermediate saved states. -/
def processDockingJob (vinaAvailable : Bool) (now : Int) (rand : ℕ → ℚ)
    (outcome : EngineOutcome) (job : Job) : Job × List Job :=
  let running := { job with status := JobStatus.running, progress := 10 }
  if vinaAvailable && (job.parameters.method == "vina") then
    match outcome with
    | EngineOutcome.ok res => (completeRealJob now rand res running, [running])
    | EngineOutcome.err msg =>
      ({ running with status := JobStatus.failed, error := some msg }, [running])
  else
    let sim := simulateDocking now rand job.parameters running
    (sim.1, running :: sim.2)

/-- A job results document is well-ordered when its pose list is sorted
ascending by score and its bestPose score is the score of the first pose. -/
def resultsOrdered (j : Job) : Prop :=
  ∀ r ∈ j.results,
    List.Sorted scoreLE r.poses ∧ r.poses.head?.map Pose.score = some r.bestPose.score

/-! ## Job submission (backend/routes/auth.js, the docking submit route) -/

/-- A protein document, as read by the submit route and the real engine
path. -/
structure Protein where
  id : String
  pdbId : String
  structure_ : String
deriving DecidableEq

/-- A ligand document. -/
structure Ligand where
  id : String
  name : String
  smiles : String
deriving DecidableEq

/-- Optional parameter overrides of the request body. -/
structure ParamOverrides where
  gridCenter : Option GridVec
  gridSize : Option GridVec
  method : Option String
  exhaustivity : Option ℚ
  numPoses : Option ℕ
deriving DecidableEq

/-- The request body of the submit route. -/
structure SubmitBody where
  proteinId : Option String
  ligandId : Option String
  parameters : Option ParamOverrides
deriving DecidableEq

/-- The document store visible to the submit route. -/
structure Store where
  proteins : List Protein
  ligands : List Ligand
  jobs : List Job
deriving DecidableEq

/-- The response of the submit route: 400 validation error, 404 not-found
error, or 201 with the created job. -/
inductive SubmitResult
  | badRequest (message : String)
  | notFound (message : String)
  | created (job : Job)
deriving DecidableEq

/-- The JS `x || d` default on an optional numeric field: absent or zero
falls back to the default. -/
def jsOrQ (v : Option ℚ) (d : ℚ) : ℚ :=
  match v with
  | some x => if x = 0 then d else x
  | none => d

/-- The JS `x || d` default on an optional count field. -/
def jsOrN (v : Option ℕ) (d : ℕ) : ℕ :=
  match v with
  | some x => if x = 0 then d else x
  | none => d

/-- The JS `x || d` default on an optional string field: absent or empty
falls back to the default. -/
def jsOrStr (v : Option String) (d : String) : String :=
  match v with
  | some s => if s = "" then d else s
  | none => d

/-- The SwissDock-inspired parameter extraction with defaults of the submit
route. -/
def extractParams (parameters : Option ParamOverrides) : DockingParams :=
  { gridCenter := (parameters.bind ParamOverrides.gridCenter).getD
      { x := 0, y := 0, z := 0 }
    gridSize := (parameters.bind ParamOverrides.gridSize).getD
      { x := 20, y := 20, z := 20 }
    method := jsOrStr (parameters.bind ParamOverrides.method) "vina"
    exhaustivity := jsOrQ (parameters.bind ParamOverrides.exhaustivity) 16
    numPoses := jsOrN (parameters.bind ParamOverrides.numPoses) 9 }

/-- Protein.findById over the modelled store. -/
def findProteinById (store : Store) (pid : String) : Option Protein :=
  store.proteins.find? (fun p => p.id == pid)

/-- Ligand.findById over the modelled store. -/
def findLigandById (store : Store) (lid : String) : Option Ligand :=
  store.ligands.find? (fun l => l.id == lid)

/-- The submit route: reject with 400 when either id is missing or empty
(`!proteinId || !ligandId`), reject with 400 when either id fails the
ObjectId format check (the mongoose validity predicate is an external
collaborator, passed in as isValidObjectId), reject with 404 when either
referenced record is absent, and otherwise create and store a pending job
with progress 0 and the extracted parameters. -/
def submitDocking (isValidObjectId : String → Bool) (userId : String) (now : Int)
    (body : SubmitBody) (store : Store) : SubmitResult × Store :=
  let proteinId := body.proteinId.getD ""
  let ligandId := body.ligandId.getD ""
  if proteinId = "" ∨ ligandId = "" then
    (SubmitResult.badRequest "Both proteinId and ligandId are required", store)
  else if isValidObjectId proteinId = false then
    (SubmitResult.badRequest "Invalid protein ID format", store)
  else if isValidObjectId ligandId = false then
    (SubmitResult.badRequest "Invalid ligand ID format", store)
  else
    match findProteinById store proteinId, findLigandById store ligandId with
    | some _, some _ =>
      let dockingParams := extractParams body.parameters
      let job : Job :=
        { userId := userId
          proteinId := proteinId
          ligandId := ligandId
          status := JobStatus.pending
          parameters := dockingParams
          progress := 0
          estimatedTime :=
            ⌈dockingParams.exhaustivity * (dockingParams.numPoses : ℚ) * 30 / 60⌉
          results := none
          error := none
          createdAt := now
          completedAt := none }
      (SubmitResult.created job, { store with jobs := store.jobs ++ [job] })
    | _, _ =>
      (SubmitResult.notFound "Protein or ligand not found in database", store)

/-! ## Viewer cleanup sweep (backend/server.js, setupViewerCleanup) -/

/-- The Mongo query of one sweep pass: results.viewer.expiresAt is in the
past and results.viewer.htmlPath exists. -/
def viewerQueryMatch (now : Int) (job : Job) : Bool :=
  match job.results with
  | none => false
  | some r =>
    match r.viewer with
    | none => false
    | some v =>
      (match v.expiresAt with
       | some e => decide (e < now)
       | none => false)
      && v.htmlPath.isSome

/-- The on-disk artifact path of a job viewer, if any. -/
def viewerPathOf (job : Job) : Option String :=
  (job.results.bind JobResults.viewer).bind Viewer.htmlPath

/-- Clearing the viewer sub-document: `job.results.viewer = {}` followed by
save, leaving every other field of the job and of its results untouched. -/
def clearViewer (job : Job) : Job :=
  { job with results := job.results.map (fun r => { r with viewer := some emptyViewer }) }

/-- One pass of the cleanup sweep over the job list and the set of files on
disk: for each job matched by the query, delete its artifact if present
(fs.existsSync then fs.unlinkSync; a missing file is skipped, not an error)
and clear its viewer sub-document; jobs not matched are untouched. -/
def sweepPass (now : Int) : List Job → Finset String → List Job × Finset String
  | [], files => ([], files)
  | job :: rest, files =>
    if viewerQueryMatch now job then
      let files1 :=
        match viewerPathOf job with
        | some p => if p ∈ files then files.erase p else files
        | none => files
      let out := sweepPass now rest files1
      (clearViewer job :: out.1, out.2)
    else
      let out := sweepPass now rest files
      (job :: out.1, out.2)

/-! ## Concrete witness inputs -/

/-- Default docking parameters with a chosen pose count. -/
def sampleParams (n : ℕ) : DockingParams :=
  { gridCenter := { x := 0, y := 0, z := 0 }
    gridSize := { x := 20, y := 20, z := 20 }
    method := "vina"
    exhaustivity := 16
    numPoses := n }

/-- A freshly created pending job with the given parameters. -/
def pendingJob (params : DockingParams) : Job :=
  { userId := "u1"
    proteinId := "507f1f77bcf86cd799439011"
    ligandId := "507f1f77bcf86cd799439012"
    status := JobStatus.pending
    parameters := params
    progress := 0
    estimatedTime := 0
    results := none
    error := none
    createdAt := 0
    completedAt := none }

/-- The all-zero model of the Math.random stream. -/
def zeroRand : ℕ → ℚ := fun _ => 0

/-- A minimal completed results document carrying the given viewer. -/
def sampleResultsWithViewer (vw : Option Viewer) : JobResults :=
  { bindingAffinity := -9
    gridDetection := none
    files := none
    viewer := vw
    interactions := none
    poses := []
    clusters := []
    bestPose := { poseId := 1, score := -9, bindingAffinity := -9 }
    method := "simulated" }

/-- A completed job whose viewer expired at time 5. -/
def expiredViewerJob : Job :=
  { pendingJob (sampleParams 9) with
    status := JobStatus.completed
    results := some (sampleResultsWithViewer (some
      { viewerId := some "v1", htmlPath := some "viewer1.html",
        expiresAt := some 5, urlPath := some "/api/docking/viewer/v1" })) }

/-- A completed job whose viewer expires at time 50. -/
def freshViewerJob : Job :=
  { pendingJob (sampleParams 9) with
    status := JobStatus.completed
    results := some (sampleResultsWithViewer (some
      { viewerId := some "v2", htmlPath := some "viewer2.html",
        expiresAt := some 50, urlPath := some "/api/docking/viewer/v2" })) }

/-- Five raw engine poses used as witness input. -/
def sampleRawPoses : List RawPose :=
  (List.range 5).map (fun k =>
    { poseId := k + 1, score := -9 + (k : ℚ), rmsd_lb := none,
      pdbFile := none, interactions := none })

/-- A concrete store holding one protein and one ligand. -/
def sampleStore : Store :=
  { proteins := [{ id := "507f1f77bcf86cd799439011", pdbId := "1HSG",
                   structure_ := "ATOM" }]
    ligands := [{ id := "507f1f77bcf86cd799439012", name := "ritonavir",
                  smiles := "CC" }]
    jobs := [] }

/-- A concrete stand-in for the mongoose ObjectId validity check. -/
def isValidId24 : String → Bool := fun s => s.length == 24

/-- Concrete pose list used as witness input for the clustering claims. -/
def samplePoses : List VPose :=
  [{ poseId := 1, score := -9, rmsd_lb := some 1 },
   { poseId := 2, score := -8, rmsd_lb := some 3 },
   { poseId := 3, score := -7, rmsd_lb := none }]

/-- Concrete pose list with only absent or zero rmsd_lb fields, used as
witness input for claim C9. -/
def uniformPoses : List VPose :=
  [{ poseId := 1, score := -9, rmsd_lb := none },
   { poseId := 2, score := -8, rmsd_lb := some 0 }]

/-! ## Theorems for claims C1 and C3 -/

/-- Helper: every value emitted by the filter strictly exceeds the filter
state, and the emitted sequence is strictly increasing. -/
theorem filteredProgress_chain (lines : List EngineLine) :
    ∀ lastProgress : Int,
      (∀ x ∈ filteredProgress lastProgress lines, lastProgress < x) ∧
      List.Chain' (fun a b => a < b) (filteredProgress lastProgress lines) := by
  induction lines with
  | nil => intro lastProgress; simp [filteredProgress]
  | cons hd rest ih =>
    intro lastProgress
    cases hd with
    | progressMsg p msg =>
      by_cases hp : p > lastProgress
      · have h1 := ih p
        constructor
        · intro x hx
          simp only [filteredProgress, if_pos hp, List.mem_cons] at hx
          rcases hx with hx | hx
          · exact hx ▸ hp
          · exact lt_trans hp (h1.1 x hx)
        · simp only [filteredProgress, if_pos hp]
          rw [List.chain'_cons']
          exact ⟨fun b hb => h1.1 b (List.mem_of_mem_head? hb), h1.2⟩
      · have h1 := ih lastProgress
        constructor
        · intro x hx
          simp only [filteredProgress, if_neg hp] at hx
          exact h1.1 x hx
        · simp only [filteredProgress, if_neg hp]
          exact h1.2
    | successMsg r => exact ih lastProgress
    | otherLine s => exact ih lastProgress

/-- Helper: the filtered sequence is a subsequence of the raw progress
sequence: discarded events are dropped, never reordered or altered. -/
theorem filteredProgress_sublist (lines : List EngineLine) :
    ∀ lastProgress : Int,
      (filteredProgress lastProgress lines).Sublist (progressValues lines) := by
  induction lines with
  | nil => intro lastProgress; simp [filteredProgress, progressValues]
  | cons hd rest ih =>
    intro lastProgress
    cases hd with
    | progressMsg p msg =>
      by_cases hp : p > lastProgress
      · simpa [filteredProgress, progressValues, if_pos hp] using
          List.Sublist.cons₂ p (ih p)
      · simpa [filteredProgress, progressValues, if_neg hp] using
          List.Sublist.cons p (ih lastProgress)
    | successMsg r => exact ih lastProgress
    | otherLine s => exact ih lastProgress

/-- Claim C1: for every stream of engine lines delivered for one running job,
the sequence of progress values persisted by the Orchestrator callback is
strictly increasing (in particular it never decreases, whatever order events
arrive in), and it is a subsequence of the raw progress events: an event whose
value is not strictly greater than the last observed value is discarded by
runDocking rather than handed to the persisting callback. -/
theorem persistedProgress_monotonic (lines : List EngineLine) :
    List.Chain' (fun a b => a < b) (persistedProgress lines) ∧
    (persistedProgress lines).Sublist (progressValues lines) :=
  ⟨(filteredProgress_chain lines 0).2, filteredProgress_sublist lines 0⟩

/-! ## Structural lemmas for clusterPoses -/

/-- Unfolding equation for the inner scan on an empty list. -/
theorem innerLoop_nil (t : ℚ) (idx : ℕ) (assigned : Finset ℕ) :
    innerLoop t idx [] assigned = ([], assigned) := rfl

/-- Unfolding equation for the inner scan on a cons cell. -/
theorem innerLoop_cons (t : ℚ) (idx j : ℕ) (q : VPose) (rest : List (ℕ × VPose))
    (assigned : Finset ℕ) :
    innerLoop t idx ((j, q) :: rest) assigned =
      if j ∈ assigned ∨ j = idx then innerLoop t idx rest assigned
      else if q.rmsd_lb.getD 0 ≤ t then
        ((j, q) :: (innerLoop t idx rest (insert j assigned)).1,
         (innerLoop t idx rest (insert j assigned)).2)
      else innerLoop t idx rest assigned := rfl

/-- Unfolding equation for the outer loop on an empty list. -/
theorem outerLoop_nil (t : ℚ) (allPoses : List (ℕ × VPose)) (assigned : Finset ℕ)
    (nClusters : ℕ) : outerLoop t allPoses [] assigned nClusters = [] := rfl

/-- Unfolding equation for the outer loop on a cons cell. -/
theorem outerLoop_cons (t : ℚ) (allPoses : List (ℕ × VPose)) (idx : ℕ) (pose : VPose)
    (rest : List (ℕ × VPose)) (assigned : Finset ℕ) (nClusters : ℕ) :
    outerLoop t allPoses ((idx, pose) :: rest) assigned nClusters =
      if idx ∈ assigned then outerLoop t allPoses rest assigned nClusters
      else
        ({ clusterId := nClusters
           memberCount := (idx :: (innerLoop t idx allPoses assigned).1.map Prod.fst).length
           bestScore := pose.score
           representativePose := pose.poseId },
         idx :: (innerLoop t idx allPoses assigned).1.map Prod.fst)
        :: outerLoop t allPoses rest
            (insert idx (innerLoop t idx allPoses assigned).2) (nClusters + 1) := rfl

/-- The inner scan is sound: the final assigned set is the initial one plus
the absorbed indices; every absorbed pair comes from the scanned list, was not
previously assigned and is not the representative; and no index is absorbed
twice. -/
theorem innerLoop_spec (t : ℚ) (idx : ℕ) :
    ∀ (L : List (ℕ × VPose)) (assigned : Finset ℕ),
      (innerLoop t idx L assigned).2 =
        assigned ∪ ((innerLoop t idx L assigned).1.map Prod.fst).toFinset ∧
      (∀ p ∈ (innerLoop t idx L assigned).1, p ∈ L ∧ p.1 ∉ assigned ∧ p.1 ≠ idx) ∧
      ((innerLoop t idx L assigned).1.map Prod.fst).Nodup := by
  intro L
  induction L with
  | nil => intro assigned; simp [innerLoop_nil]
  | cons hd rest ih =>
    intro assigned
    obtain ⟨j, q⟩ := hd
    rw [innerLoop_cons]
    by_cases hg : j ∈ assigned ∨ j = idx
    · rw [if_pos hg]
      obtain ⟨h1, h2, h3⟩ := ih assigned
      exact ⟨h1, fun p hp => ⟨List.mem_cons_of_mem _ (h2 p hp).1, (h2 p hp).2⟩, h3⟩
    · rw [if_neg hg]
      push_neg at hg
      by_cases hr : q.rmsd_lb.getD 0 ≤ t
      · rw [if_pos hr]
        obtain ⟨h1, h2, h3⟩ := ih (insert j assigned)
        refine ⟨?_, ?_, ?_⟩
        · dsimp only
          rw [List.map_cons, List.toFinset_cons, h1, Finset.insert_union,
            Finset.union_insert]
        · dsimp only
          intro p hp
          rcases List.mem_cons.1 hp with hp | hp
          · subst hp
            exact ⟨List.mem_cons_self _ _, hg.1, hg.2⟩
          · obtain ⟨hmem, hnin, hne⟩ := h2 p hp
            exact ⟨List.mem_cons_of_mem _ hmem,
              fun hc => hnin (Finset.mem_insert_of_mem hc), hne⟩
        · dsimp only
          rw [List.map_cons, List.nodup_cons]
          refine ⟨?_, h3⟩
          intro hj
          obtain ⟨p, hp, hpj⟩ := List.mem_map.1 hj
          exact (h2 p hp).2.1 (hpj ▸ Finset.mem_insert_self j assigned)
      · rw [if_neg hr]
        obtain ⟨h1, h2, h3⟩ := ih assigned
        exact ⟨h1, fun p hp => ⟨List.mem_cons_of_mem _ (h2 p hp).1, (h2 p hp).2⟩, h3⟩

/-- The member lists produced by the outer loop partition the not-yet-assigned
indices of the scanned array: concatenated they contain no duplicates, and
they contain exactly the indices of `allPoses` outside the initial assigned
set, provided every pending pair comes from `allPoses` and every unassigned
pair of `allPoses` is still pending. -/
theorem outerLoop_spec (t : ℚ) (allPoses : List (ℕ × VPose)) :
    ∀ (rest : List (ℕ × VPose)) (assigned : Finset ℕ) (n0 : ℕ),
      (∀ p ∈ rest, p ∈ allPoses) →
      (∀ p ∈ allPoses, p.1 ∉ assigned → p ∈ rest) →
      ((((outerLoop t allPoses rest assigned n0).map Prod.snd).flatten.Nodup) ∧
       ∀ j, j ∈ ((outerLoop t allPoses rest assigned n0).map Prod.snd).flatten ↔
         (j ∈ allPoses.map Prod.fst ∧ j ∉ assigned)) := by
  intro rest
  induction rest with
  | nil =>
    intro assigned n0 h1 h3
    constructor
    · simp [outerLoop_nil]
    · intro j
      simp only [outerLoop_nil, List.map_nil, List.flatten_nil, List.not_mem_nil,
        false_iff, not_and]
      intro hj hnj
      obtain ⟨p, hp, rfl⟩ := List.mem_map.1 hj
      exact List.not_mem_nil p (h3 p hp hnj)
  | cons hd rest ih =>
    intro assigned n0 h1 h3
    obtain ⟨idx, pose⟩ := hd
    rw [outerLoop_cons]
    by_cases hg : idx ∈ assigned
    · rw [if_pos hg]
      apply ih assigned n0
      · exact fun p hp => h1 p (List.mem_cons_of_mem _ hp)
      · intro p hpall hpn
        rcases List.mem_cons.1 (h3 p hpall hpn) with heq | hmem
        · exact absurd (show p.1 ∈ assigned from heq ▸ hg) hpn
        · exact hmem
    · rw [if_neg hg]
      obtain ⟨hs1, hs2, hs3⟩ := innerLoop_spec t idx allPoses assigned
      have hsub_a2 : assigned ⊆ (innerLoop t idx allPoses assigned).2 := by
        rw [hs1]; exact Finset.subset_union_left
      have hsub2 : (innerLoop t idx allPoses assigned).2 ⊆
          insert idx (innerLoop t idx allPoses assigned).2 :=
        Finset.subset_insert _ _
      have hmemidx : ∀ x ∈ idx :: (innerLoop t idx allPoses assigned).1.map Prod.fst,
          x ∈ insert idx (innerLoop t idx allPoses assigned).2 := by
        intro x hx
        rcases List.mem_cons.1 hx with rfl | hx
        · exact Finset.mem_insert_self _ _
        · apply Finset.mem_insert_of_mem
          rw [hs1]
          exact Finset.mem_union_right _ (List.mem_toFinset.2 hx)
      have hH1 : ∀ p ∈ rest, p ∈ allPoses := fun p hp => h1 p (List.mem_cons_of_mem _ hp)
      have hH3 : ∀ p ∈ allPoses, p.1 ∉ insert idx (innerLoop t idx allPoses assigned).2 →
          p ∈ rest := by
        intro p hpall hpn
        have hpn0 : p.1 ∉ assigned := fun hc => hpn (hsub2 (hsub_a2 hc))
        rcases List.mem_cons.1 (h3 p hpall hpn0) with heq | hmem
        · exact absurd (show p.1 ∈ insert idx (innerLoop t idx allPoses assigned).2 from
            heq ▸ Finset.mem_insert_self _ _) hpn
        · exact hmem
      obtain ⟨ihn, ihm⟩ := ih (insert idx (innerLoop t idx allPoses assigned).2)
        (n0 + 1) hH1 hH3
      constructor
      · rw [List.map_cons, List.flatten_cons]
        rw [List.nodup_append]
        refine ⟨?_, ihn, ?_⟩
        · rw [List.nodup_cons]
          refine ⟨?_, hs3⟩
          intro hidx
          obtain ⟨p, hp, hpj⟩ := List.mem_map.1 hidx
          exact (hs2 p hp).2.2 hpj
        · intro x hx hx2
          have := ((ihm x).1 hx2).2
          exact this (hmemidx x hx)
      · intro j
        rw [List.map_cons, List.flatten_cons, List.mem_append]
        constructor
        · intro hj
          rcases hj with hj | hj
          · rcases List.mem_cons.1 hj with rfl | hj
            · exact ⟨List.mem_map_of_mem Prod.fst (h1 _ (List.mem_cons_self _ _)), hg⟩
            · obtain ⟨p, hp, hpj⟩ := List.mem_map.1 hj
              obtain ⟨hmem, hnin, _⟩ := hs2 p hp
              exact ⟨hpj ▸ List.mem_map_of_mem Prod.fst hmem, hpj ▸ hnin⟩
          · obtain ⟨hf, hn⟩ := (ihm j).1 hj
            exact ⟨hf, fun hc => hn (hsub2 (hsub_a2 hc))⟩
        · rintro ⟨hjf, hjn⟩
          by_cases hj2 : j ∈ insert idx (innerLoop t idx allPoses assigned).2
          · left
            rcases Finset.mem_insert.1 hj2 with rfl | hj2
            · exact List.mem_cons_self _ _
            · rw [hs1] at hj2
              rcases Finset.mem_union.1 hj2 with hc | hc
              · exact absurd hc hjn
              · exact List.mem_cons_of_mem _ (List.mem_toFinset.1 hc)
          · right
            exact (ihm j).2 ⟨hjf, hj2⟩

/-- Each produced cluster records as memberCount the length of its member
list. -/
theorem outerLoop_memberCount (t : ℚ) (allPoses : List (ℕ × VPose)) :
    ∀ (rest : List (ℕ × VPose)) (assigned : Finset ℕ) (n0 : ℕ),
      ∀ cm ∈ outerLoop t allPoses rest assigned n0, cm.1.memberCount = cm.2.length := by
  intro rest
  induction rest with
  | nil => intro assigned n0 cm hcm; rw [outerLoop_nil] at hcm; exact absurd hcm (List.not_mem_nil cm)
  | cons hd rest ih =>
    intro assigned n0 cm hcm
    obtain ⟨idx, pose⟩ := hd
    rw [outerLoop_cons] at hcm
    by_cases hg : idx ∈ assigned
    · rw [if_pos hg] at hcm
      exact ih assigned n0 cm hcm
    · rw [if_neg hg] at hcm
      rcases List.mem_cons.1 hcm with rfl | hcm
      · rfl
      · exact ih _ _ cm hcm

/-- Membership in the index range of the enumerated pose list. -/
theorem mem_map_fst_enumPosesFrom :
    ∀ (l : List VPose) (n j : ℕ),
      j ∈ (enumPosesFrom n l).map Prod.fst ↔ (n ≤ j ∧ j < n + l.length) := by
  intro l
  induction l with
  | nil => intro n j; simp [enumPosesFrom]
  | cons p rest ih =>
    intro n j
    simp only [enumPosesFrom, List.map_cons, List.mem_cons, ih (n + 1) j,
      List.length_cons]
    omega

/-- The enumerated indices contain no duplicates. -/
theorem nodup_map_fst_enumPosesFrom :
    ∀ (l : List VPose) (n : ℕ), ((enumPosesFrom n l).map Prod.fst).Nodup := by
  intro l
  induction l with
  | nil => intro n; simp [enumPosesFrom]
  | cons p rest ih =>
    intro n
    simp only [enumPosesFrom, List.map_cons, List.nodup_cons]
    refine ⟨?_, ih (n + 1)⟩
    rw [mem_map_fst_enumPosesFrom]
    omega

/-- In a list of pairwise-disjoint duplicate-free blocks, an element of the
concatenation belongs to exactly one block. -/
theorem countP_flatten_mem :
    ∀ (L : List (List ℕ)) (j : ℕ), L.flatten.Nodup → j ∈ L.flatten →
      L.countP (fun ms => decide (j ∈ ms)) = 1 := by
  intro L j
  induction L with
  | nil => intro _ h; simp at h
  | cons ms L ih =>
    intro hnd hmem
    rw [List.flatten_cons] at hnd hmem
    obtain ⟨hnd1, hnd2, hdisj⟩ := List.nodup_append.1 hnd
    rw [List.countP_cons]
    rcases List.mem_append.1 hmem with hin | hin
    · have hz : L.countP (fun ms2 => decide (j ∈ ms2)) = 0 := by
        apply List.countP_eq_zero.2
        intro ms2 hms2
        simp only [decide_eq_true_eq]
        intro hjin
        exact hdisj hin (List.mem_flatten.2 ⟨ms2, hms2, hjin⟩)
      simp [hz, hin]
    · have hne : j ∉ ms := fun hc => hdisj hc hin
      have h1 := ih hnd2 hin
      simp [h1, hne]

/-- The inner scan is complete: a scanned pair whose index is not assigned
after the scan is either the representative itself or out of threshold. -/
theorem innerLoop_complete (t : ℚ) (idx : ℕ) :
    ∀ (L : List (ℕ × VPose)) (assigned : Finset ℕ) (p : ℕ × VPose), p ∈ L →
      p.1 ∉ (innerLoop t idx L assigned).2 →
      p.1 = idx ∨ ¬ p.2.rmsd_lb.getD 0 ≤ t := by
  intro L
  induction L with
  | nil => intro assigned p hp _; exact absurd hp (List.not_mem_nil p)
  | cons hd rest ih =>
    intro assigned p hp hnp
    obtain ⟨j, q⟩ := hd
    rw [innerLoop_cons] at hnp
    by_cases hg : j ∈ assigned ∨ j = idx
    · rw [if_pos hg] at hnp
      rcases List.mem_cons.1 hp with rfl | hp
      · rcases hg with hg | hg
        · exfalso
          apply hnp
          rw [(innerLoop_spec t idx rest assigned).1]
          exact Finset.mem_union_left _ hg
        · exact Or.inl hg
      · exact ih assigned p hp hnp
    · rw [if_neg hg] at hnp
      by_cases hr : q.rmsd_lb.getD 0 ≤ t
      · rw [if_pos hr] at hnp
        dsimp only at hnp
        rcases List.mem_cons.1 hp with rfl | hp
        · exfalso
          apply hnp
          rw [(innerLoop_spec t idx rest (insert j assigned)).1]
          exact Finset.mem_union_left _ (Finset.mem_insert_self _ _)
        · exact ih (insert j assigned) p hp hnp
      · rw [if_neg hr] at hnp
        rcases List.mem_cons.1 hp with rfl | hp
        · exact Or.inr hr
        · exact ih assigned p hp hnp

/-- When every pending pose is already assigned, the outer loop produces no
further clusters. -/
theorem outerLoop_all_assigned (t : ℚ) (allPoses : List (ℕ × VPose)) :
    ∀ (rest : List (ℕ × VPose)) (assigned : Finset ℕ) (n0 : ℕ),
      (∀ p ∈ rest, p.1 ∈ assigned) → outerLoop t allPoses rest assigned n0 = [] := by
  intro rest
  induction rest with
  | nil => intro assigned n0 _; exact outerLoop_nil ..
  | cons hd rest ih =>
    intro assigned n0 h
    obtain ⟨idx, pose⟩ := hd
    rw [outerLoop_cons, if_pos (h (idx, pose) (List.mem_cons_self _ _))]
    exact ih assigned n0 (fun p hp => h p (List.mem_cons_of_mem _ hp))

/-- The pose component of an enumerated pair comes from the original list. -/
theorem snd_mem_of_mem_enumPosesFrom :
    ∀ (l : List VPose) (n : ℕ) (p : ℕ × VPose), p ∈ enumPosesFrom n l → p.2 ∈ l := by
  intro l
  induction l with
  | nil => intro n p hp; exact absurd hp (List.not_mem_nil p)
  | cons q rest ih =>
    intro n p hp
    rcases List.mem_cons.1 hp with rfl | hp
    · exact List.mem_cons_self _ _
    · exact List.mem_cons_of_mem _ (ih (n + 1) p hp)

/-- Claim C7: clusterPoses partitions its input. The memberCounts of the
returned clusters sum to the number of input poses, and each input pose
(identified by its array index) is counted in the member list of exactly one
returned cluster, for every input list and threshold. -/
theorem clusterPoses_partition (poses : List VPose) (t : ℚ) :
    ((clusterPoses poses t).map Cluster.memberCount).sum = poses.length ∧
    ∀ j, j < poses.length →
      (clusterPosesAux poses t).countP (fun cm => decide (j ∈ cm.2)) = 1 := by
  have hdef : clusterPosesAux poses t =
      outerLoop t (enumPosesFrom 0 poses) (enumPosesFrom 0 poses) ∅ 0 := rfl
  obtain ⟨hnd, hmem⟩ := outerLoop_spec t (enumPosesFrom 0 poses) (enumPosesFrom 0 poses)
    ∅ 0 (fun _ hp => hp) (fun p hp _ => hp)
  rw [← hdef] at hnd hmem
  have hmem2 : ∀ j, j ∈ ((clusterPosesAux poses t).map Prod.snd).flatten ↔
      j < poses.length := by
    intro j
    rw [hmem j, mem_map_fst_enumPosesFrom]
    simp [Finset.not_mem_empty]
  have hlen : ((clusterPosesAux poses t).map Prod.snd).flatten.length = poses.length := by
    have hfin : ((clusterPosesAux poses t).map Prod.snd).flatten.toFinset =
        Finset.range poses.length := by
      ext j
      rw [List.mem_toFinset, hmem2, Finset.mem_range]
    calc ((clusterPosesAux poses t).map Prod.snd).flatten.length
        = ((clusterPosesAux poses t).map Prod.snd).flatten.toFinset.card :=
          (List.toFinset_card_of_nodup hnd).symm
      _ = (Finset.range poses.length).card := by rw [hfin]
      _ = poses.length := Finset.card_range _
  constructor
  · have hmc := outerLoop_memberCount t (enumPosesFrom 0 poses) (enumPosesFrom 0 poses) ∅ 0
    rw [← hdef] at hmc
    calc ((clusterPoses poses t).map Cluster.memberCount).sum
        = ((clusterPosesAux poses t).map (fun cm => cm.1.memberCount)).sum := by
          rw [clusterPoses, List.map_map]; rfl
      _ = ((clusterPosesAux poses t).map (fun cm => cm.2.length)).sum := by
          congr 1
          exact List.map_congr_left (fun cm hcm => hmc cm hcm)
      _ = (((clusterPosesAux poses t).map Prod.snd).map List.length).sum := by
          rw [List.map_map]; rfl
      _ = ((clusterPosesAux poses t).map Prod.snd).flatten.length :=
          (List.length_flatten _).symm
      _ = poses.length := hlen
  · intro j hj
    have hcp : (clusterPosesAux poses t).countP (fun cm => decide (j ∈ cm.2)) =
        ((clusterPosesAux poses t).map Prod.snd).countP (fun ms => decide (j ∈ ms)) := by
      rw [List.countP_map]; rfl
    rw [hcp]
    exact countP_flatten_mem _ j hnd ((hmem2 j).2 hj)

/-- Witness for claim C7 at a concrete three-pose input. -/
theorem clusterPoses_partition_witness :
    (((clusterPoses samplePoses 2).map Cluster.memberCount).sum = samplePoses.length) ∧
    (clusterPosesAux samplePoses 2).countP (fun cm => decide (0 ∈ cm.2)) = 1 :=
  ⟨(clusterPoses_partition samplePoses 2).1,
   (clusterPoses_partition samplePoses 2).2 0 (by decide)⟩

/-- Claim C9: on a non-empty pose list whose rmsd_lb fields are all absent or
zero, with a non-negative threshold, clusterPoses returns exactly one cluster
whose memberCount is the length of the list: the missing rmsd_lb is read as
distance 0, which is always within the threshold of the first
representative. -/
theorem clusterPoses_single_cluster (poses : List VPose) (t : ℚ)
    (hne : poses ≠ []) (hz : ∀ p ∈ poses, p.rmsd_lb = none ∨ p.rmsd_lb = some 0)
    (ht : 0 ≤ t) :
    ∃ c, clusterPoses poses t = [c] ∧ c.memberCount = poses.length := by
  obtain ⟨p0, ps, rfl⟩ := List.exists_cons_of_ne_nil hne
  have hrm : ∀ q ∈ enumPosesFrom 0 (p0 :: ps), q.2.rmsd_lb.getD 0 ≤ t := by
    intro q hq
    rcases hz q.2 (snd_mem_of_mem_enumPosesFrom _ 0 q hq) with h | h <;> simp [h, ht]
  obtain ⟨hs1, hs2, hs3⟩ := innerLoop_spec t 0 (enumPosesFrom 0 (p0 :: ps)) ∅
  have hmsmem : ∀ j,
      j ∈ (innerLoop t 0 (enumPosesFrom 0 (p0 :: ps)) ∅).1.map Prod.fst ↔
      (1 ≤ j ∧ j < ps.length + 1) := by
    intro j
    constructor
    · intro hj
      obtain ⟨p, hp, rfl⟩ := List.mem_map.1 hj
      obtain ⟨hmemp, -, hne0⟩ := hs2 p hp
      have hrange := (mem_map_fst_enumPosesFrom (p0 :: ps) 0 p.1).1
        (List.mem_map_of_mem Prod.fst hmemp)
      simp only [List.length_cons] at hrange
      omega
    · rintro ⟨hj1, hj2⟩
      have hjf : j ∈ (enumPosesFrom 0 (p0 :: ps)).map Prod.fst := by
        rw [mem_map_fst_enumPosesFrom]
        simp only [List.length_cons]
        omega
      obtain ⟨p, hp, rfl⟩ := List.mem_map.1 hjf
      by_cases hin : p.1 ∈ (innerLoop t 0 (enumPosesFrom 0 (p0 :: ps)) ∅).2
      · rw [hs1] at hin
        rcases Finset.mem_union.1 hin with hc | hc
        · exact absurd hc (Finset.not_mem_empty _)
        · exact List.mem_toFinset.1 hc
      · rcases innerLoop_complete t 0 (enumPosesFrom 0 (p0 :: ps)) ∅ p hp hin with h0 | hnr
        · omega
        · exact absurd (hrm p hp) hnr
  have hlen : (innerLoop t 0 (enumPosesFrom 0 (p0 :: ps)) ∅).1.length = ps.length := by
    have hlenmap : ((innerLoop t 0 (enumPosesFrom 0 (p0 :: ps)) ∅).1.map Prod.fst).length
        = ps.length := by
      have hfin : ((innerLoop t 0 (enumPosesFrom 0 (p0 :: ps)) ∅).1.map Prod.fst).toFinset
          = Finset.Ico 1 (ps.length + 1) := by
        ext j
        rw [List.mem_toFinset, hmsmem, Finset.mem_Ico]
      have hcard := List.toFinset_card_of_nodup hs3
      rw [hfin, Nat.card_Ico] at hcard
      omega
    rw [List.length_map] at hlenmap
    exact hlenmap
  have htail : outerLoop t (enumPosesFrom 0 (p0 :: ps)) (enumPosesFrom 1 ps)
      (insert 0 (innerLoop t 0 (enumPosesFrom 0 (p0 :: ps)) ∅).2) 1 = [] := by
    apply outerLoop_all_assigned
    intro p hp
    by_cases hin : p.1 ∈ (innerLoop t 0 (enumPosesFrom 0 (p0 :: ps)) ∅).2
    · exact Finset.mem_insert_of_mem hin
    · have hpall : p ∈ enumPosesFrom 0 (p0 :: ps) := List.mem_cons_of_mem _ hp
      rcases innerLoop_complete t 0 (enumPosesFrom 0 (p0 :: ps)) ∅ p hpall hin with h0 | hnr
      · rw [h0]; exact Finset.mem_insert_self _ _
      · exact absurd (hrm p hpall) hnr
  refine ⟨{ clusterId := 0
            memberCount := (0 :: (innerLoop t 0 (enumPosesFrom 0 (p0 :: ps)) ∅).1.map
              Prod.fst).length
            bestScore := p0.score
            representativePose := p0.poseId }, ?_, ?_⟩
  · have hdef : clusterPosesAux (p0 :: ps) t =
        outerLoop t (enumPosesFrom 0 (p0 :: ps)) ((0, p0) :: enumPosesFrom 1 ps) ∅ 0 := rfl
    rw [clusterPoses, hdef, outerLoop_cons, if_neg (Finset.not_mem_empty 0), htail]
    rfl
  · simp only [List.length_cons, List.length_map]
    rw [hlen]

/-- Witness for claim C9 at a concrete two-pose input. -/
theorem clusterPoses_single_cluster_witness :
    ∃ c, clusterPoses uniformPoses 2 = [c] ∧ c.memberCount = uniformPoses.length :=
  clusterPoses_single_cluster uniformPoses 2 (by decide) (by decide) (by decide)

/-- Claim C3 counterexample: the engine emits a success line and then exits
with code 1. The stdout handler has already resolved the promise when the
close handler runs, so the run resolves to success despite the non-zero exit
code, contradicting the claim that a non-zero exit code always yields
failure. -/
theorem runDocking_success_despite_nonzero_exit :
    runDockingSettle [EngineLine.successMsg sampleSuccess] 1 =
      SettleResult.resolved sampleSuccess ∧ (1 : Int) ≠ 0 :=
  ⟨rfl, by decide⟩

/-- Claim C3 amended: a success message seen on the output stream resolves
the run to success regardless of the exit code (the promise settles first);
a non-zero exit code resolves the run to failure only when no success message
was seen before exit. -/
theorem runDockingSettle_amended (lines : List EngineLine) (exitCode : Int) :
    (∀ r, firstSuccess lines = some r →
      runDockingSettle lines exitCode = SettleResult.resolved r) ∧
    (firstSuccess lines = none → exitCode ≠ 0 →
      runDockingSettle lines exitCode = SettleResult.rejected vinaExitFailureMessage) := by
  constructor
  · intro r hr
    simp [runDockingSettle, hr]
  · intro hn hc
    simp [runDockingSettle, hn, hc]

/-- Generalized index claim for the pose-mapping step. -/
theorem mapVinaPosesFrom_clusterId (rand : ℕ → ℚ) :
    ∀ (rawPoses : List RawPose) (idx i : ℕ)
      (h : i < (mapVinaPosesFrom rand rawPoses idx).length),
      ((mapVinaPosesFrom rand rawPoses idx).get ⟨i, h⟩).clusterId = (idx + i) / 3 := by
  intro rawPoses
  induction rawPoses with
  | nil => intro idx i h; simp [mapVinaPosesFrom] at h
  | cons pose rest ih =>
    intro idx i h
    cases i with
    | zero => simp [mapVinaPosesFrom]
    | succ i =>
      have h2 : i < (mapVinaPosesFrom rand rest (idx + 1)).length := by
        simpa [mapVinaPosesFrom] using h
      have hih := ih (idx + 1) i h2
      simp only [mapVinaPosesFrom, List.get_cons_succ]
      rw [hih]
      congr 1
      omega

/-- Claim C10: in the real-engine completion path, the pose built from the
engine pose at 0-based index i is assigned clusterId floor(i / 3). The
assignment depends only on the position in engine output order: the statement
holds for every raw pose list and random stream, and mentions no RMSD data and
not the cluster list computed by clusterPoses. -/
theorem real_path_clusterId (rand : ℕ → ℚ) (rawPoses : List RawPose) (i : ℕ)
    (h : i < (mapVinaPoses rand rawPoses).length) :
    ((mapVinaPoses rand rawPoses).get ⟨i, h⟩).clusterId = i / 3 := by
  have hih := mapVinaPosesFrom_clusterId rand rawPoses 0 i h
  simpa using hih

/-- Witness for claim C10: the fifth mapped pose of a five-pose engine output
lands in cluster 4 / 3 = 1. -/
theorem real_path_clusterId_witness :
    ((mapVinaPoses zeroRand sampleRawPoses).get ⟨4, by decide⟩).clusterId = 4 / 3 :=
  real_path_clusterId zeroRand sampleRawPoses 4 (by decide)

/-- Claim C4: on both completion paths, a job that reaches the completed
state has its results.poses sorted ascending by score and its
results.bestPose.score equal to the score of the pose at index 0 of the
sorted list. -/
theorem pose_ordering (now : Int) (rand : ℕ → ℚ) (res : EngineSuccess)
    (params : DockingParams) (job : Job) :
    ((completeRealJob now rand res job).status = JobStatus.completed →
      resultsOrdered (completeRealJob now rand res job)) ∧
    ((simulateDocking now rand params job).1.status = JobStatus.completed →
      resultsOrdered (simulateDocking now rand params job).1) := by
  constructor
  · rcases h : List.insertionSort scoreLE (mapVinaPoses rand res.poses)
      with _ | ⟨best, restp⟩
    · intro hst
      simp [completeRealJob, h] at hst
    · intro hst r hr
      simp only [completeRealJob, h, Option.mem_def, Option.some.injEq] at hr
      subst hr
      constructor
      · have hs := List.sorted_insertionSort scoreLE (mapVinaPoses rand res.poses)
        rw [h] at hs
        simpa using hs
      · rfl
  · rcases h : List.insertionSort scoreLE
        (simClusterLoop rand params.numPoses (posesPerCluster params.numPoses)
          (-6.5 - rand 100 * 3) 3 0 0).1
      with _ | ⟨best, restp⟩
    · intro hst
      simp [simulateDocking, h] at hst
    · intro hst r hr
      simp only [simulateDocking, h, Option.mem_def, Option.some.injEq] at hr
      subst hr
      constructor
      · have hs := List.sorted_insertionSort scoreLE
          (simClusterLoop rand params.numPoses (posesPerCluster params.numPoses)
            (-6.5 - rand 100 * 3) 3 0 0).1
        rw [h] at hs
        simpa using hs
      · rfl

/-- Witness for claim C4: the real path on a one-pose engine payload and the
simulation path with a one-pose budget both complete with ordered results. -/
theorem pose_ordering_witness :
    resultsOrdered (completeRealJob 0 zeroRand sampleSuccess
      (pendingJob (sampleParams 1))) ∧
    resultsOrdered (simulateDocking 0 zeroRand (sampleParams 1)
      (pendingJob (sampleParams 1))).1 :=
  ⟨(pose_ordering 0 zeroRand sampleSuccess (sampleParams 1)
      (pendingJob (sampleParams 1))).1 rfl,
   (pose_ordering 0 zeroRand sampleSuccess (sampleParams 1)
      (pendingJob (sampleParams 1))).2 rfl⟩

/-- Claim C2: a job entering processDockingJob with neither results nor error
ends in a terminal state with exactly one of the two fields populated: a
completed job carries results and no error, a failed job carries an error and
no results, and every intermediate saved state is a running state carrying
neither field. -/
theorem terminal_exclusivity (vinaAvailable : Bool) (now : Int) (rand : ℕ → ℚ)
    (outcome : EngineOutcome) (job : Job)
    (hres : job.results = none) (herr : job.error = none) :
    ((processDockingJob vinaAvailable now rand outcome job).1.status = JobStatus.completed ∨
     (processDockingJob vinaAvailable now rand outcome job).1.status = JobStatus.failed) ∧
    ((processDockingJob vinaAvailable now rand outcome job).1.status = JobStatus.completed ↔
      (processDockingJob vinaAvailable now rand outcome job).1.results.isSome = true ∧
      (processDockingJob vinaAvailable now rand outcome job).1.error = none) ∧
    ((processDockingJob vinaAvailable now rand outcome job).1.status = JobStatus.failed ↔
      (processDockingJob vinaAvailable now rand outcome job).1.error.isSome = true ∧
      (processDockingJob vinaAvailable now rand outcome job).1.results = none) ∧
    (∀ s ∈ (processDockingJob vinaAvailable now rand outcome job).2,
      s.status = JobStatus.running ∧ s.results = none ∧ s.error = none) := by
  by_cases hb : (vinaAvailable && (job.parameters.method == "vina")) = true
  · cases outcome with
    | ok r =>
      rcases h : List.insertionSort scoreLE (mapVinaPoses rand r.poses)
        with _ | ⟨best, restp⟩
      · simp [processDockingJob, completeRealJob, hb, h, hres, herr]
      · simp [processDockingJob, completeRealJob, hb, h, hres, herr]
    | err msg =>
      simp [processDockingJob, hb, hres, herr]
  · rcases h : List.insertionSort scoreLE
        (simClusterLoop rand job.parameters.numPoses
          (posesPerCluster job.parameters.numPoses) (-6.5 - rand 100 * 3) 3 0 0).1
      with _ | ⟨best, restp⟩
    · simp [processDockingJob, simulateDocking, hb, h, hres, herr]
    · simp [processDockingJob, simulateDocking, hb, h, hres, herr]

/-- Witness for claim C2 at a concrete failing run in simulation mode. -/
theorem terminal_exclusivity_witness :
    (processDockingJob false 0 zeroRand (EngineOutcome.err "boom")
        (pendingJob (sampleParams 9))).1.status = JobStatus.completed ∨
    (processDockingJob false 0 zeroRand (EngineOutcome.err "boom")
        (pendingJob (sampleParams 9))).1.status = JobStatus.failed :=
  (terminal_exclusivity false 0 zeroRand (EngineOutcome.err "boom")
    (pendingJob (sampleParams 9)) rfl rfl).1

/-- Claim C8: in degraded mode (availability flag false), a job whose
numPoses parameter is 9 completes with 9 poses, exactly 3 clusters and method
"simulated", after the persisted progress steps 10 (running), 50 and 75 (the
two fixed delays), ending at 100. -/
theorem simulated_nine_poses (now : Int) (rand : ℕ → ℚ) (outcome : EngineOutcome)
    (job : Job) (h9 : job.parameters.numPoses = 9) :
    (processDockingJob false now rand outcome job).1.status = JobStatus.completed ∧
    (∃ r, (processDockingJob false now rand outcome job).1.results = some r ∧
      r.poses.length = 9 ∧ r.clusters.length = 3 ∧ r.method = "simulated") ∧
    (processDockingJob false now rand outcome job).2.map Job.progress = [10, 50, 75] ∧
    (processDockingJob false now rand outcome job).1.progress = 100 := by
  have hpc : posesPerCluster 9 = 3 := rfl
  have hlen1 : (simClusterLoop rand 9 3 (-6.5 - rand 100 * 3) 3 0 0).1.length = 9 := rfl
  simp only [processDockingJob, simulateDocking, Bool.false_and, Bool.false_eq_true,
    if_false, h9, hpc]
  rcases h : List.insertionSort scoreLE
      (simClusterLoop rand 9 3 (-6.5 - rand 100 * 3) 3 0 0).1
    with _ | ⟨best, restp⟩
  · exfalso
    have hl := List.length_insertionSort scoreLE
      (simClusterLoop rand 9 3 (-6.5 - rand 100 * 3) 3 0 0).1
    rw [h, hlen1] at hl
    simp at hl
  · have hl := List.length_insertionSort scoreLE
      (simClusterLoop rand 9 3 (-6.5 - rand 100 * 3) 3 0 0).1
    rw [h, hlen1] at hl
    have hlen2 : (simClusterLoop rand 9 3 (-6.5 - rand 100 * 3) 3 0 0).2.length = 3 := rfl
    simp [h, hl, hlen2]

/-- Witness for claim C8 at a fully concrete job with numPoses 9. -/
theorem simulated_nine_poses_witness :
    (processDockingJob false 0 zeroRand (EngineOutcome.err "unused")
        (pendingJob (sampleParams 9))).1.status = JobStatus.completed ∧
    (∃ r, (processDockingJob false 0 zeroRand (EngineOutcome.err "unused")
        (pendingJob (sampleParams 9))).1.results = some r ∧
      r.poses.length = 9 ∧ r.clusters.length = 3 ∧ r.method = "simulated") ∧
    (processDockingJob false 0 zeroRand (EngineOutcome.err "unused")
        (pendingJob (sampleParams 9))).2.map Job.progress = [10, 50, 75] ∧
    (processDockingJob false 0 zeroRand (EngineOutcome.err "unused")
        (pendingJob (sampleParams 9))).1.progress = 100 :=
  simulated_nine_poses 0 zeroRand (EngineOutcome.err "unused")
    (pendingJob (sampleParams 9)) rfl

/-- Claim C5: the submit route rejects with a validation (400) response when
either id is missing or empty or fails the format check, rejects with a
not-found (404) response when both ids are well-formed but either referenced
record is absent, and in every non-created outcome the store is unchanged, so
no job record is ever created on a rejection; the store only ever changes by
appending the created job. -/
theorem submit_rejects_before_creation (isValidObjectId : String → Bool)
    (userId : String) (now : Int) (body : SubmitBody) (store : Store) :
    ((body.proteinId.getD "" = "" ∨ body.ligandId.getD "" = "") →
      (∃ m, (submitDocking isValidObjectId userId now body store).1 =
        SubmitResult.badRequest m) ∧
      (submitDocking isValidObjectId userId now body store).2 = store) ∧
    ((isValidObjectId (body.proteinId.getD "") = false ∨
      isValidObjectId (body.ligandId.getD "") = false) →
      (∃ m, (submitDocking isValidObjectId userId now body store).1 =
        SubmitResult.badRequest m) ∧
      (submitDocking isValidObjectId userId now body store).2 = store) ∧
    ((findProteinById store (body.proteinId.getD "") = none ∨
      findLigandById store (body.ligandId.getD "") = none) →
     isValidObjectId (body.proteinId.getD "") = true →
     isValidObjectId (body.ligandId.getD "") = true →
     body.proteinId.getD "" ≠ "" → body.ligandId.getD "" ≠ "" →
      (∃ m, (submitDocking isValidObjectId userId now body store).1 =
        SubmitResult.notFound m) ∧
      (submitDocking isValidObjectId userId now body store).2 = store) ∧
    ((submitDocking isValidObjectId userId now body store).2 = store ∨
      ∃ j, (submitDocking isValidObjectId userId now body store).1 =
          SubmitResult.created j ∧
        (submitDocking isValidObjectId userId now body store).2.jobs =
          store.jobs ++ [j]) := by
  refine ⟨?_, ?_, ?_, ?_⟩
  · intro hmiss
    rw [submitDocking, if_pos hmiss]
    exact ⟨⟨_, rfl⟩, rfl⟩
  · intro hbad
    by_cases hmiss : body.proteinId.getD "" = "" ∨ body.ligandId.getD "" = ""
    · rw [submitDocking, if_pos hmiss]
      exact ⟨⟨_, rfl⟩, rfl⟩
    · rcases hbad with hbad | hbad
      · rw [submitDocking, if_neg hmiss, if_pos hbad]
        exact ⟨⟨_, rfl⟩, rfl⟩
      · by_cases hpv : isValidObjectId (body.proteinId.getD "") = false
        · rw [submitDocking, if_neg hmiss, if_pos hpv]
          exact ⟨⟨_, rfl⟩, rfl⟩
        · rw [submitDocking, if_neg hmiss, if_neg hpv, if_pos hbad]
          exact ⟨⟨_, rfl⟩, rfl⟩
  · intro hnf hpv hlv hp hl
    rw [submitDocking, if_neg (by
        intro hc
        rcases hc with hc | hc
        · exact hp hc
        · exact hl hc),
      if_neg (by rw [hpv]; simp), if_neg (by rw [hlv]; simp)]
    rcases hfp : findProteinById store (body.proteinId.getD "") with _ | p
    · rcases hfl : findLigandById store (body.ligandId.getD "") with _ | l
      · exact ⟨⟨_, rfl⟩, rfl⟩
      · exact ⟨⟨_, rfl⟩, rfl⟩
    · rcases hfl : findLigandById store (body.ligandId.getD "") with _ | l
      · exact ⟨⟨_, rfl⟩, rfl⟩
      · rcases hnf with hnf | hnf
        · rw [hfp] at hnf; exact absurd hnf (by simp)
        · rw [hfl] at hnf; exact absurd hnf (by simp)
  · rw [submitDocking]
    by_cases h1 : body.proteinId.getD "" = "" ∨ body.ligandId.getD "" = ""
    · rw [if_pos h1]; exact Or.inl rfl
    · rw [if_neg h1]
      by_cases h2 : isValidObjectId (body.proteinId.getD "") = false
      · rw [if_pos h2]; exact Or.inl rfl
      · rw [if_neg h2]
        by_cases h3 : isValidObjectId (body.ligandId.getD "") = false
        · rw [if_pos h3]; exact Or.inl rfl
        · rw [if_neg h3]
          rcases hfp : findProteinById store (body.proteinId.getD "") with _ | p
          · exact Or.inl rfl
          · rcases hfl : findLigandById store (body.ligandId.getD "") with _ | l
            · exact Or.inl rfl
            · exact Or.inr ⟨_, rfl, rfl⟩

/-- Witness for claim C5: a missing proteinId, a malformed proteinId, and a
well-formed but absent proteinId are each rejected against the sample store,
leaving the store unchanged. -/
theorem submit_rejects_before_creation_witness :
    ((∃ m, (submitDocking isValidId24 "u1" 0
        { proteinId := none, ligandId := some "507f1f77bcf86cd799439012",
          parameters := none } sampleStore).1 = SubmitResult.badRequest m) ∧
      (submitDocking isValidId24 "u1" 0
        { proteinId := none, ligandId := some "507f1f77bcf86cd799439012",
          parameters := none } sampleStore).2 = sampleStore) ∧
    ((∃ m, (submitDocking isValidId24 "u1" 0
        { proteinId := some "xyz", ligandId := some "507f1f77bcf86cd799439012",
          parameters := none } sampleStore).1 = SubmitResult.badRequest m) ∧
      (submitDocking isValidId24 "u1" 0
        { proteinId := some "xyz", ligandId := some "507f1f77bcf86cd799439012",
          parameters := none } sampleStore).2 = sampleStore) ∧
    ((∃ m, (submitDocking isValidId24 "u1" 0
        { proteinId := some "507f1f77bcf86cd799439099",
          ligandId := some "507f1f77bcf86cd799439012",
          parameters := none } sampleStore).1 = SubmitResult.notFound m) ∧
      (submitDocking isValidId24 "u1" 0
        { proteinId := some "507f1f77bcf86cd799439099",
          ligandId := some "507f1f77bcf86cd799439012",
          parameters := none } sampleStore).2 = sampleStore) :=
  ⟨(submit_rejects_before_creation isValidId24 "u1" 0
      { proteinId := none, ligandId := some "507f1f77bcf86cd799439012",
        parameters := none } sampleStore).1 (Or.inl rfl),
   (submit_rejects_before_creation isValidId24 "u1" 0
      { proteinId := some "xyz", ligandId := some "507f1f77bcf86cd799439012",
        parameters := none } sampleStore).2.1 (Or.inl (by decide)),
   (submit_rejects_before_creation isValidId24 "u1" 0
      { proteinId := some "507f1f77bcf86cd799439099",
        ligandId := some "507f1f77bcf86cd799439012",
        parameters := none } sampleStore).2.2.1 (Or.inl (by decide))
      (by decide) (by decide) (by decide) (by decide)⟩

/-- Unfolding equation for one step of the sweep pass. -/
theorem sweepPass_cons (now : Int) (job : Job) (rest : List Job) (files : Finset String) :
    sweepPass now (job :: rest) files =
      if viewerQueryMatch now job then
        (clearViewer job :: (sweepPass now rest
          (match viewerPathOf job with
           | some p => if p ∈ files then files.erase p else files
           | none => files)).1,
         (sweepPass now rest
          (match viewerPathOf job with
           | some p => if p ∈ files then files.erase p else files
           | none => files)).2)
      else
        (job :: (sweepPass now rest files).1, (sweepPass now rest files).2) := rfl

/-- The job-list component of a sweep pass is a pointwise map: each matched
job has its viewer cleared, each other job is returned unchanged. -/
theorem sweepPass_fst (now : Int) :
    ∀ (jobs : List Job) (files : Finset String),
      (sweepPass now jobs files).1 =
        jobs.map (fun j => if viewerQueryMatch now j then clearViewer j else j) := by
  intro jobs
  induction jobs with
  | nil => intro files; rfl
  | cons job rest ih =>
    intro files
    rw [sweepPass_cons]
    by_cases hm : viewerQueryMatch now job = true
    · rw [if_pos hm]
      dsimp only
      rw [List.map_cons, if_pos hm, ih]
    · rw [if_neg hm]
      dsimp only
      rw [List.map_cons, if_neg hm, ih]

/-- A sweep pass never creates files: the resulting on-disk set is contained
in the initial one. -/
theorem sweepPass_files_subset (now : Int) :
    ∀ (jobs : List Job) (files : Finset String), (sweepPass now jobs files).2 ⊆ files := by
  intro jobs
  induction jobs with
  | nil => intro files; exact Finset.Subset.refl _
  | cons job rest ih =>
    intro files
    rw [sweepPass_cons]
    by_cases hm : viewerQueryMatch now job = true
    · rw [if_pos hm]
      dsimp only
      rcases hp : viewerPathOf job with _ | p
      · simp only [hp]
        exact ih files
      · simp only [hp]
        by_cases hin : p ∈ files
        · rw [if_pos hin]
          exact (ih _).trans (Finset.erase_subset _ _)
        · rw [if_neg hin]
          exact ih files
    · rw [if_neg hm]
      dsimp only
      exact ih files

/-- The artifact of every matched job is gone from the on-disk set after the
pass. -/
theorem sweepPass_deletes (now : Int) :
    ∀ (jobs : List Job) (files : Finset String) (job : Job) (p : String),
      job ∈ jobs → viewerQueryMatch now job = true → viewerPathOf job = some p →
      p ∉ (sweepPass now jobs files).2 := by
  intro jobs
  induction jobs with
  | nil => intro files job p hj _ _; exact absurd hj (List.not_mem_nil job)
  | cons hd rest ih =>
    intro files job p hj hm hp
    rcases List.mem_cons.1 hj with rfl | hj
    · rw [sweepPass_cons, if_pos hm]
      dsimp only
      simp only [hp]
      by_cases hin : p ∈ files
      · rw [if_pos hin]
        intro hc
        exact Finset.not_mem_erase p files (sweepPass_files_subset now rest _ hc)
      · rw [if_neg hin]
        intro hc
        exact hin (sweepPass_files_subset now rest files hc)
    · by_cases hm2 : viewerQueryMatch now hd = true
      · rw [sweepPass_cons, if_pos hm2]
        dsimp only
        exact ih _ job p hj hm hp
      · rw [sweepPass_cons, if_neg hm2]
        dsimp only
        exact ih files job p hj hm hp

/-- Claim C6: in one sweep pass, a job matched by the expiry query (viewer
expiry in the past, viewer path set) ends with exactly its viewer
sub-document cleared (clearViewer changes nothing but the viewer field inside
results) and its on-disk artifact absent from the file set afterwards, a
missing file being skipped rather than an error; a job not matched by the
query is returned unchanged by the same pass. -/
theorem viewer_sweep_frame (now : Int) (jobs : List Job) (files : Finset String)
    (i : ℕ) (job : Job) (hi : jobs[i]? = some job) :
    (viewerQueryMatch now job = false →
      (sweepPass now jobs files).1[i]? = some job) ∧
    (viewerQueryMatch now job = true →
      (sweepPass now jobs files).1[i]? = some (clearViewer job) ∧
      ∀ p, viewerPathOf job = some p → p ∉ (sweepPass now jobs files).2) := by
  constructor
  · intro hm
    rw [sweepPass_fst, List.getElem?_map, hi]
    simp [hm]
  · intro hm
    constructor
    · rw [sweepPass_fst, List.getElem?_map, hi]
      simp [hm]
    · intro p hp
      exact sweepPass_deletes now jobs files job p (List.getElem?_mem hi) hm hp

/-- Witness for claim C6 on a two-job list: the job with the expired viewer is
cleared and its file deleted, the job with the fresh viewer is untouched. -/
theorem viewer_sweep_frame_witness :
    ((sweepPass 10 [expiredViewerJob, freshViewerJob] {"viewer1.html"}).1[1]? =
      some freshViewerJob) ∧
    ((sweepPass 10 [expiredViewerJob, freshViewerJob] {"viewer1.html"}).1[0]? =
      some (clearViewer expiredViewerJob)) ∧
    "viewer1.html" ∉ (sweepPass 10 [expiredViewerJob, freshViewerJob] {"viewer1.html"}).2 :=
  ⟨(viewer_sweep_frame 10 [expiredViewerJob, freshViewerJob] {"viewer1.html"}
      1 freshViewerJob rfl).1 rfl,
   ((viewer_sweep_frame 10 [expiredViewerJob, freshViewerJob] {"viewer1.html"}
      0 expiredViewerJob rfl).2 rfl).1,
   ((viewer_sweep_frame 10 [expiredViewerJob, freshViewerJob] {"viewer1.html"}
      0 expiredViewerJob rfl).2 rfl).2 "viewer1.html" rfl⟩

/-- Witness for the amended C3 theorem at concrete inputs: an empty stream
with exit code 1 is rejected, and a stream with a success line after a log
line resolves even under exit code 0. -/
theorem runDockingSettle_amended_witness :
    runDockingSettle [] 1 = SettleResult.rejected vinaExitFailureMessage ∧
    runDockingSettle [EngineLine.otherLine "log",
      EngineLine.successMsg sampleSuccess] 0 = SettleResult.resolved sampleSuccess :=
  ⟨(runDockingSettle_amended [] 1).2 rfl (by decide),
   (runDockingSettle_amended [EngineLine.otherLine "log",
      EngineLine.successMsg sampleSuccess] 0).1 sampleSuccess rfl⟩

end ProteinDock
